import Mathlib

/-!
Verification development for the `kobo_update` repository
(`src/luapula_progress.py` and `src/western_progress.py`).

Both files implement the same pipeline: fetch survey submissions from a
remote Kobo server (paginated), load a per-camp target table, reconcile
collected counts against targets (`build_progress`), and render a CSV and
an HTML report.  The two variants differ only in the hardcoded
code-to-label table (`CAMP_LABEL_MAP`), in output paths, and in target
schema handling (`western_progress.py` has `load_targets` with column
aliases; `luapula_progress.py` checks for the exact canonical columns in
`main`).

The embedding below is parametric in the code-to-label map, so every
theorem about `build_progress` applies to both variants; the two concrete
maps are embedded as `Luapula.CAMP_LABEL_MAP` and `Western.CAMP_LABEL_MAP`.

Modelling conventions:
* A submission record is represented by the two fields the code consumes
  (`section0/sec0_camp` and `section0/sec0_farmerid`), each a `RawField`:
  the key can be absent from the record, hold JSON null, or hold a
  string.  `pd.json_normalize` fills an absent key with float NaN when
  some other record carries the key (otherwise the code itself adds the
  column as `None`), and `Series.map` applies `normalize_str` to NaN
  cells too, stringifying them to `"nan"` — this NaN path is modelled
  explicitly (`cellValue`, `normalize_str`).
* Python `str.strip()` is modelled by `pyStrip` (drop whitespace on both
  ends of the character list).
* The float column `progress_pct` is modelled exactly by `Pct`: either an
  exact fraction `Pct.fin ⟨num, den, _⟩` (`den > 0`) or `Pct.inf` for the
  IEEE `inf` that `100 * c / 0` produces when `c > 0`.  The `NaN` produced
  by `0 / 0` is the `none` of `progress_pct_raw`, and is the only value
  `.fillna(0.0)` replaces — exactly as in pandas, where `fillna` does not
  touch `inf`.  Value comparison of two fractions is integer
  cross-multiplication, which agrees with the rational (float) order
  because denominators are positive; `Pct.embed` maps a `Pct` into
  `WithTop ℚ` and is used to prove order facts.
* `sort_values(["progress_pct", "remaining_n"], ascending=[True, False])`
  is modelled by a stable sort (`List.insertionSort`) with the same
  lexicographic key; the claims only depend on sortedness and on the
  multiset of rows.  Python `sorted()` on strings is modelled by
  `List.insertionSort` with code-point lexicographic order `strLe`.
* The pagination loop of `fetch_all_submissions` is a `while True` loop;
  it is modelled with explicit fuel, the out-of-fuel case standing for
  divergence (unreachable in all theorems below).
-/

/-- Python `str.strip()`: drop whitespace characters from both ends.
(Defined over the character list so that it computes in the kernel.) -/
def pyStrip (s : String) : String :=
  ⟨((s.data.dropWhile Char.isWhitespace).reverse.dropWhile Char.isWhitespace).reverse⟩

/-- One field of a raw submission record, as `pd.json_normalize` sees
it: the key may be absent from the record, present with JSON null, or
present with a string value.  (Non-string JSON scalars are out of scope;
the code only ever reads these two fields as strings.) -/
inductive RawField where
  | missing
  | null
  | val (s : String)
deriving DecidableEq, Repr

/-- The Python value a dataframe cell holds when `normalize_str` is
mapped over a column: `None`, the float NaN that `json_normalize` and
`read_csv` use for missing data, or a string. -/
inductive PyVal where
  | none
  | nan
  | str (s : String)
deriving DecidableEq, Repr

/-- `normalize_str` from both files, under `Series.map` with the default
`na_action` (the function is applied to NaN cells too): `None` maps to
`None`; the float NaN of an absent key is stringified — `str(nan).strip()`
is the non-empty string `"nan"`; a string is stripped, with the empty
result turned into `None`. -/
def normalize_str : PyVal → Option String
  | .none => none
  | .nan => some "nan"
  | .str s => let t := pyStrip s; if t = "" then none else some t

/-- A raw submission record, restricted to the two consumed fields
`section0/sec0_camp` (camp code) and `section0/sec0_farmerid`. -/
structure Submission where
  campCode : RawField
  farmerId : RawField
deriving DecidableEq, Repr

/-- A submission after both consumed columns were normalized:
`none` is a cell that `isna()` reports missing. -/
structure NormSub where
  campCode : Option String
  farmerId : Option String
deriving DecidableEq, Repr

/-- One row of the target CSV: the raw `camp_label` cell (`none` is a
blank cell, which `read_csv` reads as NaN) and `target_n` already parsed
as an integer (`astype(int)`). -/
structure TargetRow where
  camp_label : Option String
  target_n : Int
deriving DecidableEq, Repr

/-- A CSV cell of the target table: a blank cell reads as NaN (also
under a string dtype), a present cell as its string. -/
def csvCell : Option String → PyVal
  | Option.none => PyVal.nan
  | Option.some s => PyVal.str s

/-- Association-list lookup, modelling Python `dict` lookup
(`Series.map(CAMP_LABEL_MAP)`) and the pandas merge key lookup. -/
def alistLookup {β : Type} (a : String) : List (String × β) → Option β
  | [] => none
  | (k, v) :: rest => if a = k then some v else alistLookup a rest

/-- Code-point lexicographic comparison of character lists, modelling the
string order used by Python `sorted()`. -/
def charListLe : List Char → List Char → Bool
  | [], _ => true
  | _ :: _, [] => false
  | a :: as, b :: bs => if a < b then true else if b < a then false else charListLe as bs

/-- The string order used to model Python `sorted()`. -/
def strLe (a b : String) : Prop := charListLe a.data b.data = true

instance : DecidableRel strLe := fun a b =>
  inferInstanceAs (Decidable (_ = true))

namespace Luapula

/-- `CAMP_LABEL_MAP` from `src/luapula_progress.py`. -/
def CAMP_LABEL_MAP : List (String × String) :=
  [("1", "Mabumba"), ("2", "Monga"), ("3", "Lukwesa"), ("4", "Chibondo"),
   ("5", "Katuta"), ("6", "Kabalange"), ("7", "Lusambo"), ("8", "Luena"),
   ("9", "Kanengo")]

end Luapula

namespace Western

/-- `CAMP_LABEL_MAP` from `src/western_progress.py`. -/
def CAMP_LABEL_MAP : List (String × String) :=
  [("1", "Lukena"), ("2", "Mishulundu"), ("3", "Namatindi"), ("4", "Ng\u0027Uma"),
   ("5", "Sihole"), ("6", "Ikabako"), ("7", "Limulunga North"),
   ("8", "Limulunga South"), ("9", "Nangili"), ("10", "Ndanda East"),
   ("11", "Ndanda West"), ("12", "Simaa"), ("13", "Sitoya"), ("14", "Ushaa"),
   ("15", "Kawaya"), ("16", "Kashamba"), ("17", "Luanchuma"), ("18", "Lyalala"),
   ("19", "Mbanga"), ("20", "Ngulwana"), ("21", "Kakwacha"), ("22", "Lubelele"),
   ("23", "Lutembwe"), ("24", "Muyondoti"), ("25", "Mataba"),
   ("26", "Mitete Central"), ("27", "Sitwala"), ("28", "Sikunduko"),
   ("29", "Lupuyi"), ("30", "Kama"), ("31", "Litawa"), ("32", "Nakanya"),
   ("33", "Nalwei"), ("34", "Namushakende"), ("35", "Namusheshe"),
   ("36", "Sefula"), ("37", "Tapo"), ("38", "Liliachi"), ("39", "Litoya"),
   ("40", "Muoyo"), ("41", "Nasilimwe")]

end Western

/-- An exact fraction with positive denominator: the value of a finite
float produced by `100 * collected_n / target_n`. -/
structure PRat where
  num : Int
  den : Int
  den_pos : 0 < den

instance : DecidableEq PRat := fun a b =>
  decidable_of_iff (a.num = b.num ∧ a.den = b.den) (by
    cases a; cases b; simp)

/-- The value of the `progress_pct` float column: a finite fraction or
`inf` (what `100 * c / 0` yields in pandas for `c > 0`). -/
inductive Pct where
  | fin (q : PRat)
  | inf
deriving DecidableEq

/-- The exact fraction `n / d` (for `d ≠ 0`), with the sign moved to the
numerator so the denominator is positive. -/
def mkPRat (n d : Int) (hd : d ≠ 0) : PRat :=
  if h : d < 0 then ⟨-n, -d, by omega⟩ else ⟨n, d, by omega⟩

/-- The float `0.0` that `.fillna(0.0)` inserts. -/
def pctZero : PRat := ⟨0, 1, by norm_num⟩

/-- Float order on `progress_pct` values (`inf` above every finite
value); cross-multiplication is valid because denominators are positive. -/
def Pct.lt : Pct → Pct → Prop
  | .fin a, .fin b => a.num * b.den < b.num * a.den
  | .fin _, .inf => True
  | .inf, _ => False

/-- Float equality on `progress_pct` values. -/
def Pct.eqv : Pct → Pct → Prop
  | .fin a, .fin b => a.num * b.den = b.num * a.den
  | .inf, .inf => True
  | _, _ => False

instance : ∀ a b : Pct, Decidable (Pct.lt a b)
  | .fin _, .fin _ => inferInstanceAs (Decidable (_ < _))
  | .fin _, .inf => inferInstanceAs (Decidable True)
  | .inf, .fin _ => inferInstanceAs (Decidable False)
  | .inf, .inf => inferInstanceAs (Decidable False)

instance : ∀ a b : Pct, Decidable (Pct.eqv a b)
  | .fin _, .fin _ => inferInstanceAs (Decidable (_ = _))
  | .fin _, .inf => inferInstanceAs (Decidable False)
  | .inf, .fin _ => inferInstanceAs (Decidable False)
  | .inf, .inf => inferInstanceAs (Decidable True)

/-- The rational (extended) value of a `progress_pct` float. -/
def Pct.embed : Pct → WithTop ℚ
  | .fin a => (((a.num : ℚ) / (a.den : ℚ) : ℚ) : WithTop ℚ)
  | .inf => ⊤

/-- One row of the reconciled output table (the dataframe columns of
`build_progress`, in order). -/
structure Row where
  camp_label : String
  target_n : Int
  collected_n : Nat
  remaining_n : Int
  progress_pct : Pct
  missing_camp_rows : Nat
  missing_farmerid_rows : Nat
  unmapped_camp_codes : String
deriving DecidableEq

/-- Whether `json_normalize` materializes a column at all: some record
carries the key.  When no record does, the code adds the column itself
(`raw[col] = None`). -/
def colExists (f : Submission → RawField) (subs : List Submission) : Bool :=
  subs.any fun s => decide (f s ≠ RawField.missing)

/-- The dataframe cell of one record field before normalization: if the
column was never materialized it is the `None` of `raw[col] = None`;
otherwise `json_normalize` fills an absent key with float NaN, keeps a
JSON null as `None`, and a present string as itself. -/
def cellValue (colEx : Bool) : RawField → PyVal
  | .missing => if colEx then PyVal.nan else PyVal.none
  | .null => PyVal.none
  | .val s => PyVal.str s

/-- Normalize both consumed columns of the submission table
(`raw[FIELD].map(normalize_str)` for camp code and farmer id).  Note the
column-existence context: an absent key becomes NaN — and hence the
normalized string `"nan"` — only when some record carries the key. -/
def normSubs (subs : List Submission) : List NormSub :=
  subs.map fun s =>
    ⟨normalize_str (cellValue (colExists Submission.campCode subs) s.campCode),
      normalize_str (cellValue (colExists Submission.farmerId subs) s.farmerId)⟩

/-- `missing_camp_rows`: number of submissions whose normalized camp code
is absent (`raw[FIELD_CAMP_CODE].isna().sum()`). -/
def missing_camp_rows (subs : List Submission) : Nat :=
  ((normSubs subs).filter fun s => decide (s.campCode = none)).length

/-- `missing_farmerid_rows`: number of submissions whose normalized
farmer id is absent. -/
def missing_farmerid_rows (subs : List Submission) : Nat :=
  ((normSubs subs).filter fun s => decide (s.farmerId = none)).length

/-- `camp_label` column: normalized camp code looked up in the label map
(`raw[FIELD_CAMP_CODE].map(CAMP_LABEL_MAP)`; codes not in the dict map to
NaN). Takes an already-normalized submission. -/
def labelOf (m : List (String × String)) (s : NormSub) : Option String :=
  s.campCode.bind fun c => alistLookup c m

/-- `unmapped_camp_codes`: the distinct normalized camp codes that are
not keys of the label map, sorted
(`sorted([c for c in raw[F].dropna().unique() if c not in CAMP_LABEL_MAP])`). -/
def unmappedCodes (m : List (String × String)) (subs : List Submission) : List String :=
  List.insertionSort strLe
    ((((normSubs subs).filterMap NormSub.campCode).dedup).filter
      fun c => decide (alistLookup c m = none))

/-- The (label, farmer id) pair a normalized submission contributes to the
aggregation, if it survives `dropna(subset=["camp_label", FIELD_FARMER_ID])`. -/
def pairOf (m : List (String × String)) (s : NormSub) : Option (String × String) :=
  match labelOf m s, s.farmerId with
  | some l, some f => some (l, f)
  | _, _ => none

/-- The rows surviving `dropna(subset=["camp_label", FIELD_FARMER_ID])`,
projected to (label, farmer id). -/
def mappedPairs (m : List (String × String)) (subs : List Submission) :
    List (String × String) :=
  (normSubs subs).filterMap (pairOf m)

/-- `groupby("camp_label")[FIELD_FARMER_ID].nunique()` evaluated at one
label: the number of distinct farmer ids among submissions mapped to it. -/
def collectedFor (m : List (String × String)) (subs : List Submission)
    (l : String) : Nat :=
  ((((mappedPairs m subs).filter fun p => decide (p.1 = l)).map Prod.snd).dedup).length

/-- The group keys of the aggregate (`groupby` sorts its keys). -/
def groupKeys (m : List (String × String)) (subs : List Submission) : List String :=
  List.insertionSort strLe (((mappedPairs m subs).map Prod.fst).dedup)

/-- The `agg` dataframe: one (camp_label, collected_n) row per group key. -/
def aggList (m : List (String × String)) (subs : List Submission) :
    List (String × Nat) :=
  (groupKeys m subs).map fun l => (l, collectedFor m subs l)

/-- Target-table normalization (in `build_progress` for luapula, in
`load_targets` for western): `map(normalize_str)` over the label column
(a blank cell is NaN, which normalizes to the string `"nan"`), then drop
rows whose label is absent, keeping the integer `target_n`. -/
def normTargets (ts : List TargetRow) : List (String × Int) :=
  ts.filterMap fun r => (normalize_str (csvCell r.camp_label)).map fun l => (l, r.target_n)

/-- `100 * collected_n / target_n` in pandas float semantics: `0/0` is
NaN (`none` here), `c/0` for `c > 0` is `inf`, otherwise the exact
quotient. -/
def progress_pct_raw (c : Nat) (t : Int) : Option Pct :=
  if ht : t = 0 then (if c = 0 then none else some .inf)
  else some (.fin (mkPRat (100 * (c : Int)) t ht))

/-- `.fillna(0.0)`: replace NaN (and only NaN) by `0.0`. -/
def fillna0 (o : Option Pct) : Pct :=
  o.getD (.fin pctZero)

/-- One merged row of `build_progress`, before sorting: the left-join of
a normalized target row against `agg` (`fillna(0)` for missing labels),
with the derived columns and the run-level diagnostics. -/
def mkRow (m : List (String × String)) (subs : List Submission)
    (lt : String × Int) : Row :=
  let c : Nat := (alistLookup lt.1 (aggList m subs)).getD 0
  { camp_label := lt.1
    target_n := lt.2
    collected_n := c
    remaining_n := max 0 (lt.2 - (c : Int))
    progress_pct := fillna0 (progress_pct_raw c lt.2)
    missing_camp_rows := missing_camp_rows subs
    missing_farmerid_rows := missing_farmerid_rows subs
    unmapped_camp_codes := String.intercalate ", " (unmappedCodes m subs) }

/-- The sort key of
`sort_values(["progress_pct", "remaining_n"], ascending=[True, False])`:
percentage ascending, ties broken by remaining count descending. -/
def rowLE (a b : Row) : Prop :=
  Pct.lt a.progress_pct b.progress_pct ∨
    (Pct.eqv a.progress_pct b.progress_pct ∧ b.remaining_n ≤ a.remaining_n)

instance : DecidableRel rowLE := fun a b => by
  unfold rowLE; infer_instance

/-- `build_progress` from both files (parametric in `CAMP_LABEL_MAP`):
normalize targets, aggregate distinct farmer ids per label, left-join
onto targets, derive `remaining_n` / `progress_pct`, attach run-level
diagnostics, and sort by urgency. -/
def build_progress (m : List (String × String)) (subs : List Submission)
    (targets : List TargetRow) : List Row :=
  List.insertionSort rowLE ((normTargets targets).map (mkRow m subs))

example :
    build_progress Luapula.CAMP_LABEL_MAP
      [⟨.val "1", .val "F1"⟩] [⟨some "Mabumba", 4⟩] =
      [⟨"Mabumba", 4, 1, 3, .fin ⟨100, 4, by norm_num⟩, 0, 0, ""⟩] := by decide

/-! ### Order facts about `Pct` (float order via the rational embedding) -/

theorem Pct.lt_iff_embed : ∀ a b : Pct, Pct.lt a b ↔ Pct.embed a < Pct.embed b
  | .fin a, .fin b => by
    simp only [Pct.lt, Pct.embed, WithTop.coe_lt_coe]
    rw [div_lt_div_iff₀ (by exact_mod_cast a.den_pos) (by exact_mod_cast b.den_pos)]
    constructor
    · intro h; exact_mod_cast h
    · intro h; exact_mod_cast h
  | .fin a, .inf => by
    simpa [Pct.lt, Pct.embed] using WithTop.coe_lt_top _
  | .inf, .fin b => by
    simp [Pct.lt, Pct.embed]
  | .inf, .inf => by
    simp [Pct.lt, Pct.embed]

theorem Pct.eqv_iff_embed : ∀ a b : Pct, Pct.eqv a b ↔ Pct.embed a = Pct.embed b
  | .fin a, .fin b => by
    simp only [Pct.eqv, Pct.embed, WithTop.coe_eq_coe]
    rw [div_eq_div_iff (by exact_mod_cast a.den_pos.ne') (by exact_mod_cast b.den_pos.ne')]
    constructor
    · intro h; exact_mod_cast h
    · intro h; exact_mod_cast h
  | .fin a, .inf => by
    simp [Pct.eqv, Pct.embed]
  | .inf, .fin b => by
    simp [Pct.eqv, Pct.embed]
  | .inf, .inf => by
    simp [Pct.eqv, Pct.embed]

instance : IsTotal Row rowLE where
  total a b := by
    rcases lt_trichotomy (Pct.embed a.progress_pct) (Pct.embed b.progress_pct) with h | h | h
    · exact Or.inl (Or.inl ((Pct.lt_iff_embed _ _).mpr h))
    · rcases Int.le_total b.remaining_n a.remaining_n with h2 | h2
      · exact Or.inl (Or.inr ⟨(Pct.eqv_iff_embed _ _).mpr h, h2⟩)
      · exact Or.inr (Or.inr ⟨(Pct.eqv_iff_embed _ _).mpr h.symm, h2⟩)
    · exact Or.inr (Or.inl ((Pct.lt_iff_embed _ _).mpr h))

instance : IsTrans Row rowLE where
  trans a b c hab hbc := by
    rcases hab with h1 | ⟨h1, r1⟩ <;> rcases hbc with h2 | ⟨h2, r2⟩
    · exact Or.inl ((Pct.lt_iff_embed _ _).mpr
        (((Pct.lt_iff_embed _ _).mp h1).trans ((Pct.lt_iff_embed _ _).mp h2)))
    · exact Or.inl ((Pct.lt_iff_embed _ _).mpr
        (((Pct.eqv_iff_embed _ _).mp h2) ▸ ((Pct.lt_iff_embed _ _).mp h1)))
    · exact Or.inl ((Pct.lt_iff_embed _ _).mpr
        (((Pct.eqv_iff_embed _ _).mp h1) ▸ ((Pct.lt_iff_embed _ _).mp h2)))
    · exact Or.inr ⟨(Pct.eqv_iff_embed _ _).mpr
        (((Pct.eqv_iff_embed _ _).mp h1).trans ((Pct.eqv_iff_embed _ _).mp h2)),
        le_trans r2 r1⟩

/-! ### Structural facts about `build_progress` -/

/-- Membership in the sorted output is membership in the merged rows. -/
theorem mem_build_progress {m : List (String × String)} {subs : List Submission}
    {targets : List TargetRow} {row : Row} :
    row ∈ build_progress m subs targets ↔
      row ∈ (normTargets targets).map (mkRow m subs) :=
  (List.perm_insertionSort rowLE _).mem_iff

theorem mem_build_progress_shape {m : List (String × String)} {subs : List Submission}
    {targets : List TargetRow} {row : Row}
    (h : row ∈ build_progress m subs targets) :
    ∃ lt ∈ normTargets targets, row = mkRow m subs lt := by
  rw [mem_build_progress] at h
  obtain ⟨lt, hlt, hrow⟩ := List.mem_map.mp h
  exact ⟨lt, hlt, hrow.symm⟩

theorem alistLookup_map_self (f : String → Nat) (l : String) :
    ∀ ks : List String, alistLookup l (ks.map fun k => (k, f k)) =
      if l ∈ ks then some (f l) else none
  | [] => by simp [alistLookup]
  | k :: ks => by
    by_cases hk : l = k
    · subst hk; simp [alistLookup]
    · simp only [List.map_cons, alistLookup, if_neg hk, alistLookup_map_self f l ks,
        List.mem_cons]
      simp [hk]

/-- A label that no mapped pair carries has distinct-farmer count `0`. -/
theorem collectedFor_eq_zero {m : List (String × String)} {subs : List Submission}
    {l : String} (h : l ∉ (mappedPairs m subs).map Prod.fst) :
    collectedFor m subs l = 0 := by
  unfold collectedFor
  have : (mappedPairs m subs).filter (fun p => decide (p.1 = l)) = [] := by
    refine List.filter_eq_nil_iff.mpr fun p hp => by
      simp only [decide_eq_true_eq]
      intro hpl
      exact h (List.mem_map.mpr ⟨p, hp, hpl⟩)
  simp [this]

/-- The left-join column `collected_n` (`merge` + `fillna(0)`) computes
exactly the per-label distinct-farmer count. -/
theorem collected_lookup (m : List (String × String)) (subs : List Submission)
    (l : String) :
    (alistLookup l (aggList m subs)).getD 0 = collectedFor m subs l := by
  unfold aggList
  rw [alistLookup_map_self]
  by_cases hl : l ∈ groupKeys m subs
  · simp [hl]
  · have hl2 : l ∉ (mappedPairs m subs).map Prod.fst := by
      intro hmem
      exact hl ((List.perm_insertionSort strLe _).mem_iff.mpr (List.mem_dedup.mpr hmem))
    simp [hl, collectedFor_eq_zero hl2]

theorem pairOf_eq_some {m : List (String × String)} {s : NormSub}
    {p : String × String} (h : pairOf m s = some p) :
    labelOf m s = some p.1 ∧ s.farmerId = some p.2 := by
  unfold pairOf at h
  cases hl : labelOf m s with
  | none => rw [hl] at h; exact absurd h (by simp)
  | some l' =>
    cases hf : s.farmerId with
    | none => rw [hl, hf] at h; exact absurd h (by simp)
    | some f =>
      rw [hl, hf] at h
      simp only [Option.some.injEq] at h
      subst h
      exact ⟨rfl, rfl⟩


/-- Modelled from the spec: one submission field normalized the way the
spec describes — trim, empty string means absent — where a record whose
key is absent or null carries no value at all. -/
def specFieldNorm : RawField → Option String
  | .val s => let t := pyStrip s; if t = "" then none else some t
  | _ => none

/-- Modelled from the spec: "the collected count per location equals the
number of distinct respondent identifiers mapped to that location" — the
cardinality of the set of distinct, normalized, non-empty respondent
identifiers among raw submissions whose normalized location code maps to
the label. -/
def specCollected (m : List (String × String)) (subs : List Submission)
    (l : String) : Nat :=
  ((subs.filter fun s =>
      decide ((specFieldNorm s.campCode).bind (fun c => alistLookup c m) = some l)).filterMap
    (fun s => specFieldNorm s.farmerId)).toFinset.card

/-- **C3 (the code at the failing input).** A second submission to the
same camp whose farmer-id key is absent is stringified by
`map(normalize_str)` into the identifier `"nan"` (the float NaN that
`json_normalize` fills in is not `None`, so `normalize_str` returns
`str(nan).strip()`), survives the `dropna`, and is counted by
`nunique()` as one more distinct respondent: the code reports
`collected_n = 2` for Mabumba where the number of distinct (normalized,
non-empty) respondent identifiers among its submissions is 1. -/
theorem nan_respondent_inflates_collected :
    (build_progress Luapula.CAMP_LABEL_MAP
        [⟨.val "1", .val "F1"⟩, ⟨.val "1", .missing⟩]
        [⟨some "Mabumba", 10⟩]).map (fun r => (r.camp_label, r.collected_n)) =
      [("Mabumba", 2)] ∧
      specCollected Luapula.CAMP_LABEL_MAP
        [⟨.val "1", .val "F1"⟩, ⟨.val "1", .missing⟩] "Mabumba" = 1 :=
  ⟨by decide, by decide⟩

/-- **C4.** Every output row satisfies
`remaining_n = max 0 (target_n - collected_n)` (the `.clip(lower=0)`),
hence is never negative, even when collected exceeds the target. -/
theorem remaining_count_clipped
    (m : List (String × String)) (subs : List Submission)
    (targets : List TargetRow) (row : Row)
    (h : row ∈ build_progress m subs targets) :
    row.remaining_n = max 0 (row.target_n - (row.collected_n : Int)) ∧
      0 ≤ row.remaining_n := by
  obtain ⟨lt, hlt, rfl⟩ := mem_build_progress_shape h
  exact ⟨by simp [mkRow], by simp [mkRow]⟩

/-- **C4 witness** (collected `1` exceeds target `0`; remaining clips to `0`). -/
theorem remaining_count_clipped_witness :
    ((⟨"Mabumba", 0, 1, 0, .inf, 0, 0, ""⟩ : Row) ∈
        build_progress Luapula.CAMP_LABEL_MAP
          [⟨.val "1", .val "F1"⟩] [⟨some "Mabumba", 0⟩]) ∧
      (⟨"Mabumba", 0, 1, 0, .inf, 0, 0, ""⟩ : Row).remaining_n =
          max 0 ((⟨"Mabumba", 0, 1, 0, .inf, 0, 0, ""⟩ : Row).target_n -
            ((⟨"Mabumba", 0, 1, 0, .inf, 0, 0, ""⟩ : Row).collected_n : Int)) ∧
        0 ≤ (⟨"Mabumba", 0, 1, 0, .inf, 0, 0, ""⟩ : Row).remaining_n :=
  ⟨by decide,
    remaining_count_clipped Luapula.CAMP_LABEL_MAP
      [⟨.val "1", .val "F1"⟩] [⟨some "Mabumba", 0⟩] _ (by decide)⟩

theorem build_progress_pairwise {m : List (String × String)}
    {subs : List Submission} {targets : List TargetRow} :
    (build_progress m subs targets).Pairwise rowLE :=
  List.sorted_insertionSort rowLE _

/-- **C5.** Sorting invariant of the output table: whenever row `A`
appears anywhere before row `B`, the percentage of `B` is not strictly
below that of `A`, and on equal percentages the remaining count of `B`
is not above that of `A`
— i.e. rows are ordered by percentage ascending, ties broken by
remaining count descending.  (`Pct.lt` / `Pct.eqv` are the float order
and float equality of the `progress_pct` column.) -/
theorem output_sorted_by_urgency
    (m : List (String × String)) (subs : List Submission)
    (targets : List TargetRow) (pre mid post : List Row) (A B : Row)
    (h : build_progress m subs targets = pre ++ A :: (mid ++ B :: post)) :
    ¬ Pct.lt B.progress_pct A.progress_pct ∧
      (Pct.eqv A.progress_pct B.progress_pct → B.remaining_n ≤ A.remaining_n) := by
  have hp : (pre ++ A :: (mid ++ B :: post)).Pairwise rowLE :=
    h ▸ build_progress_pairwise
  have hB : List.Sublist [B] (mid ++ B :: post) :=
    (List.cons_sublist_cons.mpr (List.nil_sublist post)).trans
      (List.sublist_append_right mid (B :: post))
  have hsub : List.Sublist [A, B] (pre ++ A :: (mid ++ B :: post)) :=
    (List.cons_sublist_cons.mpr hB).trans
      (List.sublist_append_right pre (A :: (mid ++ B :: post)))
  have hAB : rowLE A B := by
    have hpair := hp.sublist hsub
    exact (List.pairwise_cons.mp hpair).1 B (by simp)
  constructor
  · intro hBA
    rcases hAB with h1 | ⟨h1, _⟩
    · exact lt_asymm ((Pct.lt_iff_embed _ _).mp hBA) ((Pct.lt_iff_embed _ _).mp h1)
    · rw [Pct.eqv_iff_embed] at h1
      rw [Pct.lt_iff_embed, h1] at hBA
      exact lt_irrefl _ hBA
  · intro he
    rcases hAB with h1 | ⟨_, h2⟩
    · exfalso
      rw [Pct.eqv_iff_embed] at he
      rw [Pct.lt_iff_embed, he] at h1
      exact lt_irrefl _ h1
    · exact h2

/-- **C5 witness** (two-row output: 0% row first, 25% row second). -/
theorem output_sorted_by_urgency_witness :
    (build_progress Luapula.CAMP_LABEL_MAP [⟨.val "1", .val "F1"⟩]
        [⟨some "Mabumba", 4⟩, ⟨some "Monga", 4⟩] =
      [] ++ (⟨"Monga", 4, 0, 4, .fin ⟨0, 4, by norm_num⟩, 0, 0, ""⟩ : Row) ::
        ([] ++ (⟨"Mabumba", 4, 1, 3, .fin ⟨100, 4, by norm_num⟩, 0, 0, ""⟩ : Row) :: [])) ∧
      (¬ Pct.lt (⟨"Mabumba", 4, 1, 3, .fin ⟨100, 4, by norm_num⟩, 0, 0, ""⟩ : Row).progress_pct
          (⟨"Monga", 4, 0, 4, .fin ⟨0, 4, by norm_num⟩, 0, 0, ""⟩ : Row).progress_pct ∧
        (Pct.eqv (⟨"Monga", 4, 0, 4, .fin ⟨0, 4, by norm_num⟩, 0, 0, ""⟩ : Row).progress_pct
            (⟨"Mabumba", 4, 1, 3, .fin ⟨100, 4, by norm_num⟩, 0, 0, ""⟩ : Row).progress_pct →
          (⟨"Mabumba", 4, 1, 3, .fin ⟨100, 4, by norm_num⟩, 0, 0, ""⟩ : Row).remaining_n ≤
            (⟨"Monga", 4, 0, 4, .fin ⟨0, 4, by norm_num⟩, 0, 0, ""⟩ : Row).remaining_n)) :=
  ⟨by decide,
    output_sorted_by_urgency Luapula.CAMP_LABEL_MAP [⟨.val "1", .val "F1"⟩]
      [⟨some "Mabumba", 4⟩, ⟨some "Monga", 4⟩] [] [] [] _ _ (by decide)⟩

/-- **C6.** A target label to which no submission maps still yields an
output row (the left join never errors), with `collected_n = 0` and
remaining equal to the (clipped) full target. -/
theorem absent_location_zero_collected
    (m : List (String × String)) (subs : List Submission)
    (targets : List TargetRow) (l : String) (t : Int)
    (ht : (l, t) ∈ normTargets targets)
    (habs : ∀ s ∈ normSubs subs, labelOf m s ≠ some l) :
    ∃ row ∈ build_progress m subs targets,
      row.camp_label = l ∧ row.collected_n = 0 ∧ row.target_n = t ∧
        row.remaining_n = max 0 t ∧ (0 ≤ t → row.remaining_n = t) := by
  have hno : l ∉ (mappedPairs m subs).map Prod.fst := by
    intro hmem
    obtain ⟨p, hp, hpl⟩ := List.mem_map.mp hmem
    obtain ⟨s, hs, hps⟩ := List.mem_filterMap.mp hp
    exact habs s hs (hpl ▸ (pairOf_eq_some hps).1)
  have hc : (mkRow m subs (l, t)).collected_n = 0 := by
    show (alistLookup l (aggList m subs)).getD 0 = 0
    rw [collected_lookup]
    exact collectedFor_eq_zero hno
  refine ⟨mkRow m subs (l, t),
    mem_build_progress.mpr (List.mem_map.mpr ⟨(l, t), ht, rfl⟩),
    rfl, hc, rfl, ?_, ?_⟩
  · show max 0 (t - ((mkRow m subs (l, t)).collected_n : Int)) = max 0 t
    rw [hc]; simp
  · intro h0
    show max 0 (t - ((mkRow m subs (l, t)).collected_n : Int)) = t
    rw [hc]; simp [h0]

/-- **C6 witness** (target "Monga" with no matching submission). -/
theorem absent_location_zero_collected_witness :
    ((("Monga" : String), (3 : Int)) ∈ normTargets [⟨some "Monga", 3⟩] ∧
      ∀ s ∈ normSubs [⟨.val "1", .val "F1"⟩],
        labelOf Luapula.CAMP_LABEL_MAP s ≠ some "Monga") ∧
      ∃ row ∈ build_progress Luapula.CAMP_LABEL_MAP [⟨.val "1", .val "F1"⟩]
          [⟨some "Monga", 3⟩],
        row.camp_label = "Monga" ∧ row.collected_n = 0 ∧ row.target_n = 3 ∧
          row.remaining_n = max 0 3 ∧ ((0 : Int) ≤ 3 → row.remaining_n = 3) :=
  ⟨⟨by decide, by decide⟩,
    absent_location_zero_collected Luapula.CAMP_LABEL_MAP [⟨.val "1", .val "F1"⟩]
      [⟨some "Monga", 3⟩] "Monga" 3 (by decide) (by decide)⟩

theorem filterMap_filter_ne_of_none {α β : Type} [DecidableEq α]
    {f : α → Option β} {a : α} (ha : f a = none) :
    ∀ L : List α, (L.filter fun x => decide (x ≠ a)).filterMap f = L.filterMap f := by
  intro L
  induction L with
  | nil => rfl
  | cons x L ih =>
    by_cases hx : x = a
    · subst hx
      simp only [ne_eq, decide_not] at ih ⊢
      simp [ha, ih]
    · simp only [ne_eq, decide_not] at ih ⊢
      simp [hx, ih, List.filterMap_cons]

/-- **C7.** Every normalized camp code with no entry in the label map
appears in the `unmapped_camp_codes` diagnostic, and a submission
carrying such a code is excluded from the aggregation: its normalized
record yields no (label, farmer) pair, and dropping every such record
from the normalized table changes no collected count.  (The exclusion is
stated over the normalized table, where `dropna` and `groupby` operate;
in raw terms merely adding a record can still flip the absent keys of
other records from the `None` column fill to NaN cells, a
column-materialization effect unrelated to the unmapped code itself.) -/
theorem unmapped_code_diagnostic_and_excluded
    (m : List (String × String)) (subs : List Submission) (ns : NormSub)
    (c : String) (l : String) (hns : ns ∈ normSubs subs)
    (hc : ns.campCode = some c)
    (hm : alistLookup c m = none) :
    c ∈ unmappedCodes m subs ∧ pairOf m ns = none ∧
      collectedFor m subs l =
        (((((normSubs subs).filter fun x => decide (x ≠ ns)).filterMap
              (pairOf m)).filter fun p => decide (p.1 = l)).map Prod.snd).dedup.length := by
  have hpair : pairOf m ns = none := by
    unfold pairOf labelOf
    simp [hc, hm]
  refine ⟨?_, hpair, ?_⟩
  · unfold unmappedCodes
    rw [(List.perm_insertionSort strLe _).mem_iff]
    refine List.mem_filter.mpr ⟨List.mem_dedup.mpr ?_, by simp [hm]⟩
    exact List.mem_filterMap.mpr ⟨ns, hns, hc⟩
  · unfold collectedFor mappedPairs
    rw [filterMap_filter_ne_of_none hpair]

/-- **C7 witness** (code "99" has no entry in the luapula map). -/
theorem unmapped_code_diagnostic_and_excluded_witness :
    ((⟨some "99", some "F9"⟩ : NormSub) ∈
        normSubs [⟨.val "99", .val "F9"⟩, ⟨.val "1", .val "F1"⟩] ∧
      (⟨some "99", some "F9"⟩ : NormSub).campCode = some "99" ∧
      alistLookup "99" Luapula.CAMP_LABEL_MAP = none) ∧
      ("99" ∈ unmappedCodes Luapula.CAMP_LABEL_MAP
          [⟨.val "99", .val "F9"⟩, ⟨.val "1", .val "F1"⟩] ∧
        pairOf Luapula.CAMP_LABEL_MAP (⟨some "99", some "F9"⟩ : NormSub) = none ∧
        collectedFor Luapula.CAMP_LABEL_MAP
            [⟨.val "99", .val "F9"⟩, ⟨.val "1", .val "F1"⟩] "Mabumba" =
          (((((normSubs [⟨.val "99", .val "F9"⟩, ⟨.val "1", .val "F1"⟩]).filter fun x =>
                decide (x ≠ (⟨some "99", some "F9"⟩ : NormSub))).filterMap
              (pairOf Luapula.CAMP_LABEL_MAP)).filter fun p =>
                decide (p.1 = "Mabumba")).map Prod.snd).dedup.length) :=
  ⟨⟨by decide, by decide, by decide⟩,
    unmapped_code_diagnostic_and_excluded Luapula.CAMP_LABEL_MAP
      [⟨.val "99", .val "F9"⟩, ⟨.val "1", .val "F1"⟩] ⟨some "99", some "F9"⟩
      "99" "Mabumba" (by decide) (by decide) (by decide)⟩

/-- **C10.** The three diagnostic columns are run-level constants: any
two rows of one output table carry identical values for them. -/
theorem diagnostics_run_level_uniform
    (m : List (String × String)) (subs : List Submission)
    (targets : List TargetRow) (r1 r2 : Row)
    (h1 : r1 ∈ build_progress m subs targets)
    (h2 : r2 ∈ build_progress m subs targets) :
    r1.missing_camp_rows = r2.missing_camp_rows ∧
      r1.missing_farmerid_rows = r2.missing_farmerid_rows ∧
      r1.unmapped_camp_codes = r2.unmapped_camp_codes := by
  obtain ⟨l1, _, rfl⟩ := mem_build_progress_shape h1
  obtain ⟨l2, _, rfl⟩ := mem_build_progress_shape h2
  exact ⟨rfl, rfl, rfl⟩

/-- **C10 witness** (the two rows of a two-camp run). -/
theorem diagnostics_run_level_uniform_witness :
    ((⟨"Monga", 4, 0, 4, .fin ⟨0, 4, by norm_num⟩, 0, 0, ""⟩ : Row) ∈
        build_progress Luapula.CAMP_LABEL_MAP [⟨.val "1", .val "F1"⟩]
          [⟨some "Mabumba", 4⟩, ⟨some "Monga", 4⟩] ∧
      (⟨"Mabumba", 4, 1, 3, .fin ⟨100, 4, by norm_num⟩, 0, 0, ""⟩ : Row) ∈
        build_progress Luapula.CAMP_LABEL_MAP [⟨.val "1", .val "F1"⟩]
          [⟨some "Mabumba", 4⟩, ⟨some "Monga", 4⟩]) ∧
      ((⟨"Monga", 4, 0, 4, .fin ⟨0, 4, by norm_num⟩, 0, 0, ""⟩ : Row).missing_camp_rows =
          (⟨"Mabumba", 4, 1, 3, .fin ⟨100, 4, by norm_num⟩, 0, 0, ""⟩ : Row).missing_camp_rows ∧
        (⟨"Monga", 4, 0, 4, .fin ⟨0, 4, by norm_num⟩, 0, 0, ""⟩ : Row).missing_farmerid_rows =
          (⟨"Mabumba", 4, 1, 3, .fin ⟨100, 4, by norm_num⟩, 0, 0, ""⟩ : Row).missing_farmerid_rows ∧
        (⟨"Monga", 4, 0, 4, .fin ⟨0, 4, by norm_num⟩, 0, 0, ""⟩ : Row).unmapped_camp_codes =
          (⟨"Mabumba", 4, 1, 3, .fin ⟨100, 4, by norm_num⟩, 0, 0, ""⟩ : Row).unmapped_camp_codes) :=
  ⟨⟨by decide, by decide⟩,
    diagnostics_run_level_uniform Luapula.CAMP_LABEL_MAP [⟨.val "1", .val "F1"⟩]
      [⟨some "Mabumba", 4⟩, ⟨some "Monga", 4⟩] _ _ (by decide) (by decide)⟩

/-! ### The submission fetcher (`fetch_all_submissions`) -/

/-- A decoded JSON payload of one page of `GET .../data/`: either a dict
with a `results` list and a `next` pointer, a bare list, or anything
else (the "Unexpected Kobo response format" case).  Records are
abstract (`α`). -/
inductive Payload (α : Type) where
  | results (rs : List α) (next : Option String)
  | bare (rs : List α)
  | malformed

/-- One HTTP response: status code and decoded payload. -/
structure Resp (α : Type) where
  status : Nat
  payload : Payload α

/-- `fetch_all_submissions` from both files: starting from the data URL,
follow the `next` pointer while the response is a `results` dict with a
truthy `next` (Python `if nxt:` — `None` and `""` both stop), extending
the accumulated record list; a bare-list payload ends the loop; a
non-200 status or an unrecognized payload raises.  The `while True` loop
is modelled with fuel; fuel exhaustion stands for divergence. -/
def fetch_all_submissions {α : Type} (server : String → Resp α) :
    Nat → String → List α → Except String (List α)
  | 0, _, _ => .error "pagination loop did not terminate"
  | fuel + 1, url, out =>
    let r := server url
    if r.status ≠ 200 then .error ("Kobo API error " ++ toString r.status)
    else
      match r.payload with
      | .results rs nxt =>
        match nxt with
        | some u =>
          if u = "" then .ok (out ++ rs)
          else fetch_all_submissions server fuel u (out ++ rs)
        | none => .ok (out ++ rs)
      | .bare rs => .ok (out ++ rs)
      | .malformed => .error "Unexpected Kobo response format."

/-- **C8.** Against a two-page server (`next` populated on page 1, null
on page 2) the fetcher returns exactly the records of page 1 followed by
the records of page 2; each record occurs exactly as often as on the two
pages combined (so exactly once when it is on exactly one page once). -/
theorem pagination_two_pages_concat {α : Type} [DecidableEq α]
    (p1 p2 : List α) (url0 url1 : String)
    (h01 : url0 ≠ url1) (h1 : url1 ≠ "") :
    fetch_all_submissions
        (fun u => if u = url0 then ⟨200, .results p1 (some url1)⟩
          else ⟨200, .results p2 none⟩)
        2 url0 [] = .ok (p1 ++ p2) ∧
      ∀ a : α, (p1 ++ p2).count a = p1.count a + p2.count a := by
  refine ⟨?_, fun a => List.count_append a p1 p2⟩
  have h10 : url1 ≠ url0 := fun h => h01 h.symm
  simp [fetch_all_submissions, h1, h10]

/-- **C8 witness.** -/
theorem pagination_two_pages_concat_witness :
    (("a" : String) ≠ "b" ∧ ("b" : String) ≠ "") ∧
      (fetch_all_submissions
          (fun u => if u = "a" then ⟨200, .results [10, 11] (some "b")⟩
            else ⟨200, .results [12] none⟩)
          2 "a" ([] : List Nat) = .ok ([10, 11] ++ [12]) ∧
        ∀ a : Nat, ([10, 11] ++ [12]).count a = [10, 11].count a + [12].count a) :=
  ⟨⟨by decide, by decide⟩,
    pagination_two_pages_concat [10, 11] [12] "a" "b" (by decide) (by decide)⟩

/-! ### The target loader (`load_targets` in western, the schema check in
the luapula `main`) -/

/-- Accepted alternates for the label column in western `load_targets`. -/
def westernLabelAlts : List String := ["sec0_camp_label", "camp", "Camp", "label"]

/-- Accepted alternates for the count column in western `load_targets`. -/
def westernTargetAlts : List String := ["target", "Target", "n_target", "N_target"]

/-- `df.rename(columns={alt: new})` restricted to the header row. -/
def renameCol (alt new : String) (cols : List String) : List String :=
  cols.map fun c => if c = alt then new else c

/-- One alias-resolution pass of western `load_targets`: if the
canonical name is absent, rename the first present alternate to it. -/
def resolveAlias (canon : String) (alts : List String)
    (cols : List String) : List String :=
  if canon ∈ cols then cols
  else
    match alts.find? (fun a => decide (a ∈ cols)) with
    | some alt => renameCol alt canon cols
    | none => cols

/-- The column handling of `load_targets` in `western_progress.py`:
resolve aliases for `camp_label` and `target_n`, then fail if either
canonical column is still missing. -/
def load_targets_cols (cols : List String) : Except String (List String) :=
  let cols1 := resolveAlias "camp_label" westernLabelAlts cols
  let cols2 := resolveAlias "target_n" westernTargetAlts cols1
  if "camp_label" ∉ cols2 ∨ "target_n" ∉ cols2 then
    .error "data/western_camps.csv must have columns camp_label,target_n (or compatible names)"
  else .ok cols2

/-- The schema check in `main` of `luapula_progress.py`: the exact
canonical columns must be present — no aliases are accepted. -/
def luapula_cols_check (cols : List String) : Except String Unit :=
  if "camp_label" ∉ cols ∨ "target_n" ∉ cols then
    .error "data/target_camps.csv must have columns: camp_label,target_n"
  else .ok ()

theorem mem_renameCol_of_ne {cols : List String} {alt new n : String}
    (h1 : n ≠ alt) (h2 : n ≠ new) :
    n ∈ renameCol alt new cols ↔ n ∈ cols := by
  unfold renameCol
  constructor
  · intro h
    obtain ⟨c, hc, hcn⟩ := List.mem_map.mp h
    by_cases hca : c = alt
    · rw [if_pos hca] at hcn
      exact absurd hcn.symm h2
    · rw [if_neg hca] at hcn
      exact hcn ▸ hc
  · intro h
    exact List.mem_map.mpr ⟨n, h, by rw [if_neg h1]⟩

theorem new_mem_renameCol {cols : List String} {alt new : String}
    (h : alt ∈ cols) : new ∈ renameCol alt new cols :=
  List.mem_map.mpr ⟨alt, h, by rw [if_pos rfl]⟩

theorem canon_mem_resolveAlias (canon : String) (alts : List String)
    (cols : List String) :
    canon ∈ resolveAlias canon alts cols ↔
      canon ∈ cols ∨ ∃ a ∈ alts, a ∈ cols := by
  unfold resolveAlias
  by_cases hc : canon ∈ cols
  · simp [hc]
  · rw [if_neg hc]
    cases hf : alts.find? (fun a => decide (a ∈ cols)) with
    | none =>
      refine iff_of_false hc ?_
      rintro (h | ⟨a, ha, hac⟩)
      · exact hc h
      · have hn := List.find?_eq_none.mp hf a ha
        simp only [decide_eq_true_eq] at hn
        exact hn hac
    | some alt =>
      have halts := List.mem_of_find?_eq_some hf
      have hac : alt ∈ cols := by
        have := List.find?_some hf
        simpa using this
      exact iff_of_true (new_mem_renameCol hac) (Or.inr ⟨alt, halts, hac⟩)

theorem mem_resolveAlias_of_ne (canon : String) (alts : List String)
    (cols : List String) (n : String) (hn : n ≠ canon) (hna : n ∉ alts) :
    n ∈ resolveAlias canon alts cols ↔ n ∈ cols := by
  unfold resolveAlias
  by_cases hc : canon ∈ cols
  · simp [hc]
  · rw [if_neg hc]
    cases hf : alts.find? (fun a => decide (a ∈ cols)) with
    | none => simp
    | some alt =>
      have halts := List.mem_of_find?_eq_some hf
      exact mem_renameCol_of_ne (fun h => hna (h ▸ halts)) hn

/-- **C9 (amended).** Only the western loader resolves column aliases:
`load_targets_cols` succeeds exactly when each required column is
present under its canonical name or one of its listed alternates, while
the luapula check succeeds exactly when the exact canonical columns are
present (no aliases). -/
theorem target_alias_resolution_by_variant (cols : List String) :
    ((load_targets_cols cols).isOk = true ↔
      (("camp_label" ∈ cols ∨ ∃ a ∈ westernLabelAlts, a ∈ cols) ∧
        ("target_n" ∈ cols ∨ ∃ a ∈ westernTargetAlts, a ∈ cols))) ∧
      ((luapula_cols_check cols).isOk = true ↔
        ("camp_label" ∈ cols ∧ "target_n" ∈ cols)) := by
  constructor
  · unfold load_targets_cols
    set cols1 := resolveAlias "camp_label" westernLabelAlts cols with hc1
    set cols2 := resolveAlias "target_n" westernTargetAlts cols1 with hc2
    have hcl2 : "camp_label" ∈ cols2 ↔ "camp_label" ∈ cols1 := by
      rw [hc2]
      exact mem_resolveAlias_of_ne _ _ _ _ (by decide) (by decide)
    have hcl1 : "camp_label" ∈ cols1 ↔
        ("camp_label" ∈ cols ∨ ∃ a ∈ westernLabelAlts, a ∈ cols) := by
      rw [hc1]; exact canon_mem_resolveAlias _ _ _
    have htn1 : "target_n" ∈ cols1 ↔ "target_n" ∈ cols := by
      rw [hc1]
      exact mem_resolveAlias_of_ne _ _ _ _ (by decide) (by decide)
    have halts1 : ∀ a ∈ westernTargetAlts, (a ∈ cols1 ↔ a ∈ cols) := by
      intro a ha
      rw [hc1]
      simp only [westernTargetAlts, List.mem_cons, List.not_mem_nil, or_false] at ha
      rcases ha with rfl | rfl | rfl | rfl <;>
        exact mem_resolveAlias_of_ne _ _ _ _ (by decide) (by decide)
    have htn2 : "target_n" ∈ cols2 ↔
        ("target_n" ∈ cols ∨ ∃ a ∈ westernTargetAlts, a ∈ cols) := by
      rw [hc2, canon_mem_resolveAlias, htn1]
      constructor
      · rintro (h | ⟨a, ha, hac⟩)
        · exact Or.inl h
        · exact Or.inr ⟨a, ha, (halts1 a ha).mp hac⟩
      · rintro (h | ⟨a, ha, hac⟩)
        · exact Or.inl h
        · exact Or.inr ⟨a, ha, (halts1 a ha).mpr hac⟩
    have hmain : ("camp_label" ∈ cols2 ∧ "target_n" ∈ cols2) ↔
        (("camp_label" ∈ cols ∨ ∃ a ∈ westernLabelAlts, a ∈ cols) ∧
          ("target_n" ∈ cols ∨ ∃ a ∈ westernTargetAlts, a ∈ cols)) := by
      rw [hcl2, hcl1, htn2]
    by_cases hboth : "camp_label" ∈ cols2 ∧ "target_n" ∈ cols2
    · rw [if_neg (by push_neg; exact hboth)]
      exact iff_of_true rfl (hmain.mp hboth)
    · rw [if_pos (by by_contra hcon; push_neg at hcon; exact hboth ⟨hcon.1, hcon.2⟩)]
      exact iff_of_false (by simp [Except.isOk, Except.toBool])
        fun hr => hboth (hmain.mpr hr)
  · unfold luapula_cols_check
    by_cases hboth : "camp_label" ∈ cols ∧ "target_n" ∈ cols
    · rw [if_neg (by push_neg; exact hboth)]
      exact iff_of_true rfl hboth
    · rw [if_pos (by by_contra hcon; push_neg at hcon; exact hboth ⟨hcon.1, hcon.2⟩)]
      exact iff_of_false (by simp [Except.isOk, Except.toBool]) hboth

/-- **C9 counterexample.** The column header `label, target_n` is
accepted by the western loader (via the `label` alias) but rejected by
the schema check of the luapula variant — so not *every* pipeline variant
accepts the alternate column names. -/
theorem luapula_variant_rejects_alias :
    (load_targets_cols ["label", "target_n"]).isOk = true ∧
      luapula_cols_check ["label", "target_n"] =
        .error "data/target_camps.csv must have columns: camp_label,target_n" := by
  constructor
  · rfl
  · rfl

/-! ### The report renderer (`render_html`, `to_csv`) and the pipeline.
The HTML template below is the one of `luapula_progress.py`; the western
template differs only in static text (title, CSV link) and neither
difference affects the claims. -/

def rowT0 : String :=
  "\n        <tr class=\""

def rowT1 : String :=
  "\">\n          <td class=\"camp\">"

def rowT2 : String :=
  "</td>\n          <td class=\"num\">"

def rowT3 : String :=
  "</td>\n          <td class=\"num\">"

def rowT4 : String :=
  "</td>\n          <td class=\"num\">"

def rowT5 : String :=
  "</td>\n          <td class=\"progress\">\n            <div class=\"bar-bg\"><div class=\"bar\" style=\"width:"

def rowT6 : String :=
  "%\"></div></div>\n            <div class=\"pct\">"

def rowT7 : String :=
  "%</div>\n          </td>\n        </tr>\n        "

def htmlT0 : String :=
  "<!doctype html>\n<html lang=\"ja\">\n<head>\n<meta charset=\"utf-8\" />\n<meta name=\"viewport\" content=\"width=device-width,initial-scale=1\" />\n<title>Zambia Survey Progress</title>\n<style>\n  :root \x7b\n    --fg:#111; --muted:#666; --bg:#fff; --line:#e6e6e6;\n    --bar:#111; --barbg:#f2f2f2;\n    --behind:#fff7ed; --done:#f6ffed;\n    --shadow: 0 8px 24px rgba(0,0,0,.06);\n    font-family: system-ui, -apple-system, \"Segoe UI\", Roboto, \"Noto Sans JP\", sans-serif;\n  \x7d\n  body \x7b margin:0; color:var(--fg); background:#fafafa; \x7d\n  .wrap \x7b max-width: 1100px; margin: 32px auto; padding: 0 16px; \x7d\n  header \x7b display:flex; justify-content:space-between; align-items:flex-end; gap:16px; margin-bottom: 12px; \x7d\n  h1 \x7b font-size: 20px; margin:0; \x7d\n  .meta \x7b color: var(--muted); font-size: 13px; white-space: nowrap; \x7d\n  .card \x7b background: var(--bg); border: 1px solid var(--line); border-radius: 16px; box-shadow: var(--shadow); overflow:hidden; \x7d\n  table \x7b width:100%; border-collapse: collapse; \x7d\n  thead th \x7b text-align:left; font-size: 13px; color: var(--muted); padding: 12px 14px; border-bottom:1px solid var(--line); background:#fcfcfc; position:sticky; top:0; \x7d\n  tbody td \x7b padding: 12px 14px; border-bottom: 1px solid var(--line); font-size: 14px; \x7d\n  tbody tr.behind \x7b background: var(--behind); \x7d\n  tbody tr.done \x7b background: var(--done); \x7d\n  td.num \x7b text-align:right; font-variant-numeric: tabular-nums; width: 90px; \x7d\n  td.camp \x7b font-weight: 600; \x7d\n  td.progress \x7b width: 240px; \x7d\n  .bar-bg \x7b height: 10px; background: var(--barbg); border-radius: 999px; overflow:hidden; border:1px solid #eaeaea; \x7d\n  .bar \x7b height:100%; background: var(--bar); \x7d\n  .pct \x7b font-size: 12px; color: var(--muted); margin-top: 6px; text-align:right; font-variant-numeric: tabular-nums; \x7d\n  .footer \x7b display:flex; justify-content:space-between; align-items:flex-start; gap:12px; padding: 12px 14px; color: var(--muted); font-size: 13px; \x7d\n</style>\n</head>\n<body>\n  <div class=\"wrap\">\n    <header>\n      <h1>Luapula Survey Progress</h1>\n      <div class=\"meta\">Last updated: "

def htmlT1 : String :=
  "</div>\n    </header>\n\n    <div class=\"card\">\n      <table>\n        <thead>\n          <tr>\n            <th>Camp</th>\n            <th style=\"text-align:right;\">Target</th>\n            <th style=\"text-align:right;\">Collected</th>\n            <th style=\"text-align:right;\">Remaining</th>\n            <th>Progress</th>\n          </tr>\n        </thead>\n        <tbody>\n          "

def htmlT2 : String :=
  "\n        </tbody>\n      </table>\n      <div class=\"footer\">\n        <div>\n          <div>missing camp rows: <b>"

def htmlT3 : String :=
  "</b></div>\n          <div>missing farmerid rows: <b>"

def htmlT4 : String :=
  "</b></div>\n          "

def htmlT5 : String :=
  "\n        </div>\n        <div><a href=\"./progress.csv\">CSV</a></div>\n      </div>\n    </div>\n  </div>\n</body>\n</html>\n"

/-- Round `num / den` (`den > 0`) to tenths, ties to even — the rounding
of Python `%.1f` formatting. -/
def roundTenths (num den : Int) : Int :=
  let x := 10 * num
  let q := x.fdiv den
  let r := x.fmod den
  if 2 * r < den then q
  else if den < 2 * r then q + 1
  else if q % 2 = 0 then q else q + 1

/-- Decimal string of a tenths value, e.g. `253 ↦ "25.3"`. -/
def fmtTenths (num den : Int) : String :=
  let t := roundTenths num den
  if t < 0 then
    "-" ++ toString ((-t).toNat / 10) ++ "." ++ toString ((-t).toNat % 10)
  else toString (t.toNat / 10) ++ "." ++ toString (t.toNat % 10)

/-- Python one-decimal float formatting of a progress value (the float
`inf` prints as `inf`). -/
def Pct.fmt1 : Pct → String
  | .fin q => fmtTenths q.num q.den
  | .inf => "inf"

/-- `max(0.0, min(100.0, pct))`: the clamped bar width of a row. -/
def barOf : Pct → Pct
  | .inf => .fin ⟨100, 1, by norm_num⟩
  | .fin q =>
    if 100 * q.den < q.num then .fin ⟨100, 1, by norm_num⟩
    else if q.num < 0 then .fin ⟨0, 1, by norm_num⟩
    else .fin q

/-- One `<tr>` of the report (the per-row f-string of `render_html`). -/
def rowHtml (r : Row) : String :=
  let status := if 0 < r.remaining_n then "behind" else "done"
  rowT0 ++ status ++ rowT1 ++ r.camp_label ++ rowT2 ++ toString r.target_n ++
    rowT3 ++ toString r.collected_n ++ rowT4 ++ toString r.remaining_n ++
    rowT5 ++ Pct.fmt1 (barOf r.progress_pct) ++ rowT6 ++
    Pct.fmt1 r.progress_pct ++ rowT7

/-- The `unmapped_line` f-string (present only when the diagnostic is a
non-empty string). -/
def unmappedLine (unmapped : String) : String :=
  if unmapped ≠ "" then
    "<div>unmapped camp codes: <b>" ++ unmapped ++ "</b></div>"
  else ""

/-- Everything of the rendered page after the `Last updated` timestamp:
table rows (the joined row strings) and the run-level diagnostics, which
`render_html` reads from the first row (`iloc[0]`, with defaults on an
empty table). -/
def htmlTail (df : List Row) : String :=
  let miss_camp : Nat := match df with | [] => 0 | r :: _ => r.missing_camp_rows
  let miss_fid : Nat := match df with | [] => 0 | r :: _ => r.missing_farmerid_rows
  let unmapped : String := match df with | [] => "" | r :: _ => r.unmapped_camp_codes
  htmlT1 ++ String.join (df.map rowHtml) ++ htmlT2 ++ toString miss_camp ++
    htmlT3 ++ toString miss_fid ++ htmlT4 ++ unmappedLine unmapped ++ htmlT5

/-- `render_html` from `luapula_progress.py`: the full page, with the
`updated_at` timestamp interpolated after `Last updated: `. -/
def render_html (df : List Row) (updated_at : String) : String :=
  htmlT0 ++ (updated_at ++ htmlTail df)

/-- Quote a CSV field containing a comma (pandas `QUOTE_MINIMAL`). -/
def csvField (s : String) : String :=
  if s.contains ',' then "\"" ++ s ++ "\"" else s

/-- Decimal rendering of the float column in the CSV.  It stands in for
the pandas float repr (exact float round-trip formatting is out of
scope); any fixed rendering preserves the determinism facts proved
below. -/
def pctCsv : Pct → String
  | .fin q => fmtTenths q.num q.den
  | .inf => "inf"

/-- Header line written by `to_csv` (the dataframe columns in order). -/
def csvHeader : String :=
  "camp_label,target_n,collected_n,remaining_n,progress_pct,missing_camp_rows,missing_farmerid_rows,unmapped_camp_codes"

/-- One CSV line of the reconciled table. -/
def csvRow (r : Row) : String :=
  String.intercalate ","
    [csvField r.camp_label, toString r.target_n, toString r.collected_n,
      toString r.remaining_n, pctCsv r.progress_pct,
      toString r.missing_camp_rows, toString r.missing_farmerid_rows,
      csvField r.unmapped_camp_codes]

/-- `df.to_csv(index=False)`: header line plus one line per row. -/
def to_csv (df : List Row) : String :=
  String.intercalate "\n" (csvHeader :: df.map csvRow) ++ "\n"

/-- The output-producing part of `main`: fetch all submissions, build
the progress table, and produce the two output files (CSV text, HTML
text).  `updated_at` is the formatted `utcnow()` timestamp, an input
read from the clock at run time. -/
def runPipeline (m : List (String × String)) (server : String → Resp Submission)
    (fuel : Nat) (url0 : String) (targets : List TargetRow)
    (updated_at : String) : Except String (String × String) :=
  (fetch_all_submissions server fuel url0 []).map fun subs =>
    let df := build_progress m subs targets
    (to_csv df, render_html df updated_at)

theorem string_append_middle_inj {P R t1 t2 : String}
    (h : P ++ (t1 ++ R) = P ++ (t2 ++ R)) : t1 = t2 := by
  have h2 := congrArg String.data h
  simp only [String.data_append] at h2
  have h3 := List.append_cancel_right (List.append_cancel_left h2)
  cases t1; cases t2
  exact congrArg String.mk h3

/-- The rendered page determines the timestamp it was rendered with. -/
theorem render_html_timestamp_inj (df : List Row) {t1 t2 : String}
    (h : render_html df t1 = render_html df t2) : t1 = t2 := by
  unfold render_html at h
  exact string_append_middle_inj h

/-- **C1 (the code at the failing input).** A target row with target `0`
and one collected respondent gets `progress_pct = inf`, not `0`:
`.fillna(0.0)` replaces only the NaN of `0/0`, never the infinity that
`100 * c / 0` produces for `c > 0`. -/
theorem luapula_zero_target_infinite_progress :
    (build_progress Luapula.CAMP_LABEL_MAP [⟨.val "1", .val "F001"⟩]
        [⟨some "Mabumba", 0⟩]).map Row.progress_pct = [Pct.inf] ∧
      Pct.embed Pct.inf ≠ Pct.embed (Pct.fin pctZero) :=
  ⟨by decide, by simp [Pct.embed, pctZero]⟩

theorem except_map_fst_pair {ε α β γ : Type} (e : Except ε α)
    (f : α → β) (g h : α → γ) :
    (e.map fun a => (f a, g a)).map Prod.fst =
      (e.map fun a => (f a, h a)).map Prod.fst := by
  cases e <;> rfl

/-- **C2 (amended).** For a fixed remote state and a fixed target file,
a rerun reproduces the CSV identically; the HTML is reproduced
identically exactly when the two runs render the same `Last updated`
timestamp, because the timestamp is embedded in the page. -/
theorem pipeline_rerun_csv_stable_html_iff_timestamp
    (m : List (String × String)) (server : String → Resp Submission)
    (fuel : Nat) (url0 : String) (targets : List TargetRow)
    (t1 t2 : String) (df : List Row) :
    (runPipeline m server fuel url0 targets t1).map Prod.fst =
      (runPipeline m server fuel url0 targets t2).map Prod.fst ∧
      (render_html df t1 = render_html df t2 ↔ t1 = t2) := by
  constructor
  · unfold runPipeline
    exact except_map_fst_pair (fetch_all_submissions server fuel url0 []) _ _ _
  · exact ⟨fun h => render_html_timestamp_inj df h, fun h => h ▸ rfl⟩

/-- **C2 counterexample.** Two runs over the same remote state and the
same target file, one minute apart, produce different output files: the
HTML embeds the wall-clock timestamp. -/
theorem pipeline_rerun_html_differs :
    runPipeline Luapula.CAMP_LABEL_MAP
        (fun _ => ⟨200, .results [⟨.val "1", .val "F001"⟩] none⟩) 2 "u"
        [⟨some "Mabumba", 4⟩] "2025-01-01 00:00 UTC" ≠
      runPipeline Luapula.CAMP_LABEL_MAP
        (fun _ => ⟨200, .results [⟨.val "1", .val "F001"⟩] none⟩) 2 "u"
        [⟨some "Mabumba", 4⟩] "2025-01-01 00:01 UTC" := by
  intro h
  have h2 : render_html
      (build_progress Luapula.CAMP_LABEL_MAP [⟨.val "1", .val "F001"⟩]
        [⟨some "Mabumba", 4⟩]) "2025-01-01 00:00 UTC" =
      render_html
        (build_progress Luapula.CAMP_LABEL_MAP [⟨.val "1", .val "F001"⟩]
          [⟨some "Mabumba", 4⟩]) "2025-01-01 00:01 UTC" :=
    congrArg (fun e => match e with | Except.ok p => p.2 | Except.error _ => "") h
  exact absurd (render_html_timestamp_inj _ h2) (by decide)
